import Mathlib

/-!
Verification development for the zerog-exporter repository.

The two algorithmic components are embedded shallowly:

* `BlockTimeCalculator` (Go package `util`, file with `NewBlockTimeCalculator`,
  `UpdateBlockTime`, `GetAverageBlockTime`, `GetLatestBlockTime`,
  `GetBlockTimeStats`, `EstimateBlocksInDuration`, `EstimateTimeForBlocks`,
  `IsBlockTimeStable`).  Go `time.Time` instants and `time.Duration` values are
  both `int64` nanosecond counts at runtime, so they are modelled as `Int`;
  `blockTime.Sub(lastBlockTime)` becomes integer subtraction.  The single
  `float64` computation in `IsBlockTimeStable` is modelled exactly over `ℚ`.

* the collector (`collectCosmosMetrics`, `collectEthereumMetrics`, `Collect`
  in Go package `collector`): per-validator window scan over the last 100
  blocks, latest-block aggregate signature statistics, the post-processing
  that zeroes the reported miss counters for a currently-inactive validator,
  and the scrape coordination.  Remote calls (`GetStatus`, `GetBlock`) are
  modelled as values of `Except`/`Option` handed to the embedded code:
  `none`/`error` is a failed fetch.
-/

namespace ZerogExporter

/-! ## BlockTimeCalculator (Go package util) -/

/-- State of the Go `BlockTimeCalculator` struct.  `lastBlockTime` is a
`time.Time` instant and each history entry a `time.Duration`, both modelled
as `Int` nanoseconds; `maxHistorySize` is a Go `int`. -/
structure BlockTimeCalculator where
  lastBlockTime : Int
  lastBlockHeight : Int
  blockTimeHistory : List Int
  maxHistorySize : Int
deriving DecidableEq

/-- `NewBlockTimeCalculator`: a non-positive requested size falls back to 100;
all other fields start at Go zero values (zero instant, height 0, empty
history). -/
def NewBlockTimeCalculator (maxHistorySize : Int) : BlockTimeCalculator :=
  let m := if maxHistorySize ≤ 0 then 100 else maxHistorySize
  { lastBlockTime := 0, lastBlockHeight := 0, blockTimeHistory := [], maxHistorySize := m }

/-- `UpdateBlockTime(height, blockTime)`: when a previous observation exists
(`lastBlockHeight > 0`) and the height strictly increased, append the time
delta and drop the oldest entry if the history exceeded `maxHistorySize`;
in every case overwrite the stored baseline with the new observation. -/
def UpdateBlockTime (btc : BlockTimeCalculator) (height : Int) (blockTime : Int) :
    BlockTimeCalculator :=
  let hist :=
    if btc.lastBlockHeight > 0 ∧ height > btc.lastBlockHeight then
      let h := btc.blockTimeHistory ++ [blockTime - btc.lastBlockTime]
      if (h.length : Int) > btc.maxHistorySize then h.tail else h
    else btc.blockTimeHistory
  { btc with blockTimeHistory := hist, lastBlockTime := blockTime, lastBlockHeight := height }

/-- `GetAverageBlockTime`: 0 on an empty history, otherwise the sum divided by
the length (Go `time.Duration` division truncates toward zero, i.e.
`Int.tdiv`). -/
def GetAverageBlockTime (btc : BlockTimeCalculator) : Int :=
  if btc.blockTimeHistory.length = 0 then 0
  else Int.tdiv (btc.blockTimeHistory.foldl (· + ·) 0) (btc.blockTimeHistory.length : Int)

/-- `GetLatestBlockTime`: the most recently appended history entry, 0 when the
history is empty. -/
def GetLatestBlockTime (btc : BlockTimeCalculator) : Int :=
  (btc.blockTimeHistory.getLast?).getD 0

/-- `GetBlockTimeStats`: one pass computing `(avg, min, max)`; `min`/`max`
start from the first entry and `total` from 0, exactly as the Go loop does;
all zero on an empty history. -/
def GetBlockTimeStats (btc : BlockTimeCalculator) : Int × Int × Int :=
  match btc.blockTimeHistory with
  | [] => (0, 0, 0)
  | d :: _ =>
    let acc := btc.blockTimeHistory.foldl
      (fun (acc : Int × Int × Int) x =>
        (acc.1 + x, if x < acc.2.1 then x else acc.2.1, if x > acc.2.2 then x else acc.2.2))
      (0, d, d)
    (Int.tdiv acc.1 (btc.blockTimeHistory.length : Int), acc.2.1, acc.2.2)

/-- `EstimateBlocksInDuration`: guarded truncating division by the current
average, 0 when the average is 0. -/
def EstimateBlocksInDuration (btc : BlockTimeCalculator) (duration : Int) : Int :=
  let avg := GetAverageBlockTime btc
  if avg = 0 then 0 else Int.tdiv duration avg

/-- `EstimateTimeForBlocks`: the current average times the block count. -/
def EstimateTimeForBlocks (btc : BlockTimeCalculator) (blockCount : Int) : Int :=
  GetAverageBlockTime btc * blockCount

/-- `IsBlockTimeStable`: false below 10 samples or on a zero average,
otherwise `(max - min) / avg < 0.5`; the Go `float64` quotient is modelled
exactly in `ℚ`. -/
def IsBlockTimeStable (btc : BlockTimeCalculator) : Bool :=
  if btc.blockTimeHistory.length < 10 then false
  else
    let s := GetBlockTimeStats btc
    if s.1 = 0 then false
    else decide ((((s.2.2 - s.2.1 : Int) : ℚ) / ((s.1 : Int) : ℚ)) < (1 / 2 : ℚ))

/-- `GetHistorySize`. -/
def GetHistorySize (btc : BlockTimeCalculator) : Nat :=
  btc.blockTimeHistory.length

/-- Feed a list of `(height, blockTime)` observations to the calculator in
order, exactly as successive scrapes call `UpdateBlockTime`. -/
def runUpdates (btc : BlockTimeCalculator) (us : List (Int × Int)) : BlockTimeCalculator :=
  us.foldl (fun b u => UpdateBlockTime b u.1 u.2) btc

/-- The time deltas between consecutive observations of a sequence: the
intervals that a strictly-increasing run of updates appends. -/
def consecutiveDeltas : List (Int × Int) → List Int
  | [] => []
  | [_] => []
  | a :: b :: rest => (b.2 - a.2) :: consecutiveDeltas (b :: rest)

/-- The last `n` elements of a list, in order. -/
def takeRight (n : Nat) (l : List α) : List α := l.drop (l.length - n)

/-! ## Collector data (Go package collector, `collectCosmosMetrics`)

Block data is what the collector reads from a decoded
`/block` response: the header's proposer address and the
`LastCommit.Signatures` list of `(BlockIDFlag, ValidatorAddress)` pairs.
A block source is `Int → Option Block`: `none` is a failed `GetBlock`. -/

/-- One entry of `Block.LastCommit.Signatures`: `BlockIDFlag` is a Go `int`
(4 = Commit, 5 = Absent), `ValidatorAddress` a string. -/
structure SignatureEntry where
  blockIDFlag : Int
  validatorAddress : String
deriving DecidableEq

/-- The part of a decoded block the collector reads. -/
structure Block where
  proposerAddress : String
  signatures : List SignatureEntry
deriving DecidableEq

/-- Per-validator counters of the window scan (`validatorStats` map values);
all Go `int`, zero-initialised before the scan. -/
structure ValidatorStat where
  signedBlocks : Int
  missedBlocks : Int
  consecutiveMissed : Int
  maxConsecutiveMissed : Int
  proposals : Int
deriving DecidableEq

/-- The zero-initialised counters each tracked validator starts the scan with. -/
def zeroStat : ValidatorStat := ⟨0, 0, 0, 0, 0⟩

/-- The heights visited by the Go loop
`for i := 0; i < 100 && currentHeight-i > 0; i++`, generalised over the
remaining fuel and the current loop index `i`, stopping at the first
non-positive height. -/
def scanHeights (currentHeight : Int) : Nat → Int → List Int
  | 0, _ => []
  | fuel + 1, i =>
    if currentHeight - i > 0 then
      (currentHeight - i) :: scanHeights currentHeight fuel (i + 1)
    else []

/-- The heights the window scan visits, newest first: the loop with fuel 100
starting at index 0. -/
def visitedHeights (currentHeight : Int) : List Int :=
  scanHeights currentHeight 100 0

/-- The inner Go loop deciding `hasSigned`: some signature entry matches the
validator's address with flag 4 (a matching entry with another flag does not
stop the search). -/
def hasSignedIn (sigs : List SignatureEntry) (addr : String) : Bool :=
  sigs.any fun s => s.validatorAddress == addr && s.blockIDFlag == 4

/-- The per-block body of the window scan for one tracked validator: a
proposer match bumps `proposals`; then a Commit signature bumps
`signedBlocks` and resets the streak, anything else (Absent, another flag, or
no entry at all) bumps `missedBlocks` and the streak, folding the running
maximum. -/
def updateStatOnBlock (addr : String) (b : Block) (s : ValidatorStat) : ValidatorStat :=
  let s := if b.proposerAddress == addr then { s with proposals := s.proposals + 1 } else s
  if hasSignedIn b.signatures addr then
    { s with signedBlocks := s.signedBlocks + 1, consecutiveMissed := 0 }
  else
    let cm := s.consecutiveMissed + 1
    { s with missedBlocks := s.missedBlocks + 1, consecutiveMissed := cm,
             maxConsecutiveMissed := if cm > s.maxConsecutiveMissed then cm
                                     else s.maxConsecutiveMissed }

/-- The window scan as seen by a single tracked validator: fold the per-block
update over the visited heights (newest first), skipping heights whose block
fetch failed.  This is the per-key projection of the Go nested loop, whose
inner iteration updates each map entry independently of the others. -/
def scanValidator (src : Int → Option Block) (currentHeight : Int) (addr : String) :
    ValidatorStat :=
  (visitedHeights currentHeight).foldl
    (fun s h =>
      match src h with
      | none => s
      | some b => updateStatOnBlock addr b s)
    zeroStat

/-! ## Latest-block post-processing and aggregate statistics -/

/-- The `validatorActive` value (Go float64 0.0/1.0, modelled 0/1) computed
from the latest block: initially 0.0; at the first signature entry whose
address matches, flag 4 sets 1.0, flag 5 sets 0.0, any other flag leaves it,
and the loop breaks; a failed fetch leaves 0.0. -/
def validatorActiveVal (latest : Option Block) (addr : String) : Int :=
  match latest with
  | none => 0
  | some b =>
    match b.signatures.find? (fun sg => sg.validatorAddress == addr) with
    | none => 0
    | some sg => if sg.blockIDFlag = 4 then 1 else 0

/-- The chain-level post-processing applied to the first configured
validator's raw counters (`signedBlocks`, `missedBlocks`,
`maxConsecutiveMissed`): when `validatorActive` is 0, `missedBlocks` and
`maxConsecutiveMissed` are overwritten with 0. -/
def postAggregate (stats : ValidatorStat) (latest : Option Block) (addr : String) :
    Int × Int × Int :=
  if validatorActiveVal latest addr = 0 then (stats.signedBlocks, 0, 0)
  else (stats.signedBlocks, stats.missedBlocks, stats.maxConsecutiveMissed)

/-- The per-validator post-processing in the emission loop: the reported
missed-blocks value is zeroed when `validatorActive` is 0. -/
def postValidatorMissed (stats : ValidatorStat) (latest : Option Block) (addr : String) : Int :=
  if validatorActiveVal latest addr = 0 then 0 else stats.missedBlocks

/-- The latest-block aggregate loop: `(active, inactive, total)`, bumping
`total` for every signature entry, `active` for flag 4, `inactive` for
flag 5; all zero when the latest-block fetch failed. -/
def aggregateCounts (latest : Option Block) : Int × Int × Int :=
  match latest with
  | none => (0, 0, 0)
  | some b =>
    b.signatures.foldl
      (fun (acc : Int × Int × Int) s =>
        (if s.blockIDFlag = 4 then acc.1 + 1 else acc.1,
         if s.blockIDFlag = 5 then acc.2.1 + 1 else acc.2.1,
         acc.2.2 + 1))
      (0, 0, 0)

/-- `bondedRatio`: 0.0 unless `total > 0`, else `active / total` (Go float64
division of exact small integers, modelled in `ℚ`). -/
def bondedRatio (active total : Int) : ℚ :=
  if total > 0 then (active : ℚ) / (total : ℚ) else 0

/-! ## Scrape coordination

A metric pushed on the Prometheus channel is modelled as a name, value and
label values; each of the two collection tasks is modelled by what it writes
to the shared channel and the error it returns to the errgroup. -/

/-- One `prometheus.MustNewConstMetric` emission. -/
structure Metric where
  name : String
  value : ℚ
  labels : List String
deriving DecidableEq

/-- What one collection task contributes: its channel emissions in order and
its returned error. -/
structure TaskResult where
  emitted : List Metric
  err : Option String
deriving DecidableEq

/-- `Collect`: both tasks' emissions reach the shared channel (the channel
carries no ordering guarantee; the sink content is the two emission lists put
together), and `errgroup.Wait`'s first error is only handed to the logger —
`Collect` itself returns nothing, so the logged error is recorded alongside
the sink without affecting it. -/
def Collect (cosmos ethereum : TaskResult) : List Metric × Option String :=
  (cosmos.emitted ++ ethereum.emitted, cosmos.err <|> ethereum.err)

/-- The node status data `collectCosmosMetrics` reads before anything else. -/
structure SyncStatus where
  latestBlockHeight : String
deriving DecidableEq

/-- The head of `collectCosmosMetrics`: the `GetStatus` call guards the whole
body.  On failure the function logs and returns the error having emitted
nothing (in the source no channel send precedes the status check); on
success the remainder of the body — every Cosmos-side emission, including the
interval-estimator update, the aggregate statistics and the liveness window
scan — runs with the fetched status, abstracted here as `body`. -/
def collectCosmosMetrics (getStatus : Except String SyncStatus)
    (body : SyncStatus → List Metric × Option String) : List Metric × Option String :=
  match getStatus with
  | .error e => ([], some e)
  | .ok st => body st

/-! ## Claim C1: update with a non-increasing height -/

/-- C1, counterexample: starting from a calculator that has recorded the
observation `(height 2, time 100)` (so `lastBlockHeight = 2 > 0`), feeding
the lower height 1 changes the stored baseline: `lastBlockHeight` becomes 1.
The call is therefore not a no-op on the entire estimator state. -/
theorem claim1_counterexample :
    0 < (UpdateBlockTime (NewBlockTimeCalculator 100) 2 100).lastBlockHeight ∧
    (1 : Int) ≤ (UpdateBlockTime (NewBlockTimeCalculator 100) 2 100).lastBlockHeight ∧
    (UpdateBlockTime (UpdateBlockTime (NewBlockTimeCalculator 100) 2 100) 1 200).lastBlockHeight
      ≠ (UpdateBlockTime (NewBlockTimeCalculator 100) 2 100).lastBlockHeight := by
  decide

/-- C1, amended: with at least one recorded observation, an update whose
height does not exceed the last recorded height appends no interval — the
history, its length and the average interval are unchanged — but the stored
baseline is overwritten with the new `(height, blockTime)` observation. -/
theorem claim1_low_height_keeps_history (btc : BlockTimeCalculator) (h t : Int)
    (hpos : 0 < btc.lastBlockHeight) (hle : h ≤ btc.lastBlockHeight) :
    (UpdateBlockTime btc h t).blockTimeHistory = btc.blockTimeHistory ∧
    (UpdateBlockTime btc h t).blockTimeHistory.length = btc.blockTimeHistory.length ∧
    GetAverageBlockTime (UpdateBlockTime btc h t) = GetAverageBlockTime btc ∧
    (UpdateBlockTime btc h t).lastBlockHeight = h ∧
    (UpdateBlockTime btc h t).lastBlockTime = t := by
  have hcond : ¬(btc.lastBlockHeight > 0 ∧ h > btc.lastBlockHeight) := by omega
  have hh : (UpdateBlockTime btc h t).blockTimeHistory = btc.blockTimeHistory := by
    simp [UpdateBlockTime, hcond]
  refine ⟨hh, by rw [hh], ?_, by simp [UpdateBlockTime], by simp [UpdateBlockTime]⟩
  simp [GetAverageBlockTime, hh]

/-- C1, witness for `claim1_low_height_keeps_history` at the state that
recorded `(2, 100)`, fed the duplicate-or-older height 1 at time 200. -/
theorem claim1_witness :
    0 < (UpdateBlockTime (NewBlockTimeCalculator 100) 2 100).lastBlockHeight ∧
    (1 : Int) ≤ (UpdateBlockTime (NewBlockTimeCalculator 100) 2 100).lastBlockHeight ∧
    (UpdateBlockTime (UpdateBlockTime (NewBlockTimeCalculator 100) 2 100) 1 200).blockTimeHistory
      = (UpdateBlockTime (NewBlockTimeCalculator 100) 2 100).blockTimeHistory ∧
    GetAverageBlockTime (UpdateBlockTime (UpdateBlockTime (NewBlockTimeCalculator 100) 2 100) 1 200)
      = GetAverageBlockTime (UpdateBlockTime (NewBlockTimeCalculator 100) 2 100) :=
  ⟨by decide, by decide,
   (claim1_low_height_keeps_history (UpdateBlockTime (NewBlockTimeCalculator 100) 2 100)
      1 200 (by decide) (by decide)).1,
   (claim1_low_height_keeps_history (UpdateBlockTime (NewBlockTimeCalculator 100) 2 100)
      1 200 (by decide) (by decide)).2.2.1⟩

/-! ## Claim C2: currently-inactive validators report zero miss counters -/

/-- C2: if the latest block's signature entry found for a tracked validator
has flag Absent (5), then `validatorActive` is 0 and both post-processed
outputs — the reported missed count (chain-level and per-validator) and the
reported maximum consecutive-missed count — are forced to 0, whatever raw
counters the window scan produced. -/
theorem claim2_inactive_override (stats : ValidatorStat) (b : Block) (addr : String)
    (sg : SignatureEntry)
    (hfind : b.signatures.find? (fun x => x.validatorAddress == addr) = some sg)
    (hflag : sg.blockIDFlag = 5) :
    (postAggregate stats (some b) addr).2.1 = 0 ∧
    (postAggregate stats (some b) addr).2.2 = 0 ∧
    postValidatorMissed stats (some b) addr = 0 := by
  have hact : validatorActiveVal (some b) addr = 0 := by
    simp [validatorActiveVal, hfind, hflag]
  refine ⟨?_, ?_, ?_⟩ <;> simp [postAggregate, postValidatorMissed, hact]

/-- C2, witness: a validator with heavy raw counters `(signed 42, missed 17,
streak 3, max streak 9)` whose latest-block entry is Absent reports 0 missed
and 0 max-consecutive-missed. -/
theorem claim2_witness :
    (([⟨5, "V"⟩] : List SignatureEntry).find? (fun x => x.validatorAddress == "V")
        = some ⟨5, "V"⟩) ∧
    (postAggregate ⟨42, 17, 3, 9, 1⟩ (some ⟨"P", [⟨5, "V"⟩]⟩) "V").2.1 = 0 ∧
    (postAggregate ⟨42, 17, 3, 9, 1⟩ (some ⟨"P", [⟨5, "V"⟩]⟩) "V").2.2 = 0 ∧
    postValidatorMissed ⟨42, 17, 3, 9, 1⟩ (some ⟨"P", [⟨5, "V"⟩]⟩) "V" = 0 :=
  ⟨by decide,
   (claim2_inactive_override ⟨42, 17, 3, 9, 1⟩ ⟨"P", [⟨5, "V"⟩]⟩ "V" ⟨5, "V"⟩
      (by decide) rfl).1,
   (claim2_inactive_override ⟨42, 17, 3, 9, 1⟩ ⟨"P", [⟨5, "V"⟩]⟩ "V" ⟨5, "V"⟩
      (by decide) rfl).2.1,
   (claim2_inactive_override ⟨42, 17, 3, 9, 1⟩ ⟨"P", [⟨5, "V"⟩]⟩ "V" ⟨5, "V"⟩
      (by decide) rfl).2.2⟩

/-! ## Claim C6: the Cosmos path is unaffected by the Ethereum path -/

/-- C6: whatever the Ethereum-side task does — succeed, fail, emit or not —
the Cosmos-side task's emissions reach the shared sink unchanged: the
Cosmos-side portion of the sink is exactly the Cosmos emissions for every
Ethereum outcome, and every Cosmos-emitted metric is in the sink.  Task
errors only reach the coordinator's log (the second component), never remove
sink content. -/
theorem claim6_eth_independent (cosmos e1 e2 : TaskResult) :
    (Collect cosmos e1).1.take cosmos.emitted.length = cosmos.emitted ∧
    (Collect cosmos e1).1.take cosmos.emitted.length
      = (Collect cosmos e2).1.take cosmos.emitted.length ∧
    (∀ m, m ∈ cosmos.emitted → m ∈ (Collect cosmos e1).1) := by
  refine ⟨List.take_left _ _, ?_, ?_⟩
  · rw [Collect, Collect]
    simp [List.take_left]
  · intro m hm
    exact List.mem_append_left _ hm

/-- C6, witness: with the Ethereum task failing (`some "eth down"`, nothing
emitted), the Cosmos task's single metric still appears in the sink. -/
theorem claim6_witness :
    (Collect ⟨[⟨"cosmos_td_up", 1, ["chain"]⟩], none⟩ ⟨[], some "eth down"⟩).1.take 1
      = [⟨"cosmos_td_up", 1, ["chain"]⟩] ∧
    (⟨"cosmos_td_up", 1, ["chain"]⟩ : Metric)
      ∈ (Collect ⟨[⟨"cosmos_td_up", 1, ["chain"]⟩], none⟩ ⟨[], some "eth down"⟩).1 :=
  ⟨(claim6_eth_independent ⟨[⟨"cosmos_td_up", 1, ["chain"]⟩], none⟩
      ⟨[], some "eth down"⟩ ⟨[], none⟩).1,
   (claim6_eth_independent ⟨[⟨"cosmos_td_up", 1, ["chain"]⟩], none⟩
      ⟨[], some "eth down"⟩ ⟨[], none⟩).2.2 _ (by decide)⟩

/-! ## Claim C9: zero-safety of the estimator queries -/

/-- C9: on an empty history the average, latest interval and the stats
triple are all zero; and whenever the average is zero, both estimators
return zero instead of dividing by zero — every operation is total. -/
theorem claim9_zero_safe (btc : BlockTimeCalculator) (d n : Int) :
    (btc.blockTimeHistory = [] →
      GetAverageBlockTime btc = 0 ∧ GetLatestBlockTime btc = 0 ∧
        GetBlockTimeStats btc = (0, 0, 0)) ∧
    (GetAverageBlockTime btc = 0 →
      EstimateBlocksInDuration btc d = 0 ∧ EstimateTimeForBlocks btc n = 0) := by
  constructor
  · intro h
    refine ⟨?_, ?_, ?_⟩ <;> simp [GetAverageBlockTime, GetLatestBlockTime, GetBlockTimeStats, h]
  · intro h
    constructor
    · simp [EstimateBlocksInDuration, h]
    · simp [EstimateTimeForBlocks, h]

/-- C9, witness: the freshly constructed calculator has all-zero queries and
both estimators return zero on it. -/
theorem claim9_witness :
    GetAverageBlockTime (NewBlockTimeCalculator 100) = 0 ∧
    GetLatestBlockTime (NewBlockTimeCalculator 100) = 0 ∧
    GetBlockTimeStats (NewBlockTimeCalculator 100) = (0, 0, 0) ∧
    EstimateBlocksInDuration (NewBlockTimeCalculator 100) 7 = 0 ∧
    EstimateTimeForBlocks (NewBlockTimeCalculator 100) 3 = 0 := by
  have h1 := (claim9_zero_safe (NewBlockTimeCalculator 100) 7 3).1 (by decide)
  have h2 := (claim9_zero_safe (NewBlockTimeCalculator 100) 7 3).2 h1.1
  exact ⟨h1.1, h1.2.1, h1.2.2, h2.1, h2.2⟩

/-! ## Claim C10: the status fetch guards every Cosmos-side emission -/

/-- C10: when `GetStatus` fails, `collectCosmosMetrics` emits nothing at all
and returns that error immediately; the whole body — estimator update,
aggregate statistics, window scan and every other emission — runs only on a
successful status fetch. -/
theorem claim10_status_guard (body : SyncStatus → List Metric × Option String)
    (getStatus : Except String SyncStatus) (e : String) (h : getStatus = .error e) :
    collectCosmosMetrics getStatus body = ([], some e) := by
  subst h
  rfl

/-- C10, witness: a failing status fetch against a body that would have
emitted a metric yields no emission and the error. -/
theorem claim10_witness :
    collectCosmosMetrics (.error "connection refused")
        (fun _ => ([⟨"cosmos_td_up", 1, ["chain"]⟩], none))
      = ([], some "connection refused") :=
  claim10_status_guard (fun _ => ([⟨"cosmos_td_up", 1, ["chain"]⟩], none))
    (.error "connection refused") "connection refused" rfl

/-! ## Claim C7: stability detection -/

/-- C7: with fewer than 10 samples `IsBlockTimeStable` is false whatever the
sample values are; with at least 10 samples it is true exactly when the
average is nonzero and `(max - min) / average < 1/2` over the history's
stats. -/
theorem claim7_stability (btc : BlockTimeCalculator) :
    (btc.blockTimeHistory.length < 10 → IsBlockTimeStable btc = false) ∧
    (10 ≤ btc.blockTimeHistory.length →
      (IsBlockTimeStable btc = true ↔
        (GetBlockTimeStats btc).1 ≠ 0 ∧
          (((GetBlockTimeStats btc).2.2 - (GetBlockTimeStats btc).2.1 : Int) : ℚ)
              / ((GetBlockTimeStats btc).1 : ℚ) < 1 / 2)) := by
  constructor
  · intro h
    simp [IsBlockTimeStable, h]
  · intro h
    have h' : ¬ btc.blockTimeHistory.length < 10 := by omega
    by_cases hz : (GetBlockTimeStats btc).1 = 0
    · simp [IsBlockTimeStable, h', hz]
    · simp [IsBlockTimeStable, h', hz]

/-- C7, witness: 9 equal samples are not stable; 10 equal samples are stable
and satisfy the ratio characterisation. -/
theorem claim7_witness :
    IsBlockTimeStable ⟨100, 11, [1, 1, 1, 1, 1, 1, 1, 1, 1], 100⟩ = false ∧
    (IsBlockTimeStable ⟨100, 11, [1, 1, 1, 1, 1, 1, 1, 1, 1, 1], 100⟩ = true ↔
      (GetBlockTimeStats ⟨100, 11, [1, 1, 1, 1, 1, 1, 1, 1, 1, 1], 100⟩).1 ≠ 0 ∧
        (((GetBlockTimeStats ⟨100, 11, [1, 1, 1, 1, 1, 1, 1, 1, 1, 1], 100⟩).2.2
            - (GetBlockTimeStats ⟨100, 11, [1, 1, 1, 1, 1, 1, 1, 1, 1, 1], 100⟩).2.1 : Int) : ℚ)
            / ((GetBlockTimeStats ⟨100, 11, [1, 1, 1, 1, 1, 1, 1, 1, 1, 1], 100⟩).1 : ℚ)
          < 1 / 2) :=
  ⟨(claim7_stability ⟨100, 11, [1, 1, 1, 1, 1, 1, 1, 1, 1], 100⟩).1 (by decide),
   (claim7_stability ⟨100, 11, [1, 1, 1, 1, 1, 1, 1, 1, 1, 1], 100⟩).2 (by decide)⟩

/-! ## Claim C5: latest-block aggregate statistics -/

/-- Unrolling the aggregate fold: starting from any accumulator it adds the
number of flag-4 entries to `active`, the number of flag-5 entries to
`inactive`, and the entry count to `total`. -/
lemma aggregate_foldl_eq (sigs : List SignatureEntry) (acc : Int × Int × Int) :
    sigs.foldl
      (fun (acc : Int × Int × Int) s =>
        (if s.blockIDFlag = 4 then acc.1 + 1 else acc.1,
         if s.blockIDFlag = 5 then acc.2.1 + 1 else acc.2.1,
         acc.2.2 + 1))
      acc
    = (acc.1 + (sigs.countP (fun s => s.blockIDFlag == 4) : Int),
       acc.2.1 + (sigs.countP (fun s => s.blockIDFlag == 5) : Int),
       acc.2.2 + (sigs.length : Int)) := by
  induction sigs generalizing acc with
  | nil => simp
  | cons s rest ih =>
    obtain ⟨a, i, t⟩ := acc
    simp only [List.foldl_cons, ih, List.countP_cons, List.length_cons]
    by_cases h4 : s.blockIDFlag = 4 <;> by_cases h5 : s.blockIDFlag = 5 <;>
      simp [h4, h5, beq_iff_eq, Prod.mk.injEq] <;> push_cast <;> omega

/-- The block with 7 Commit then 3 Absent signature entries used by the
spec's aggregate example. -/
def exampleBlock : Block :=
  ⟨"P", List.replicate 7 ⟨4, "W"⟩ ++ List.replicate 3 ⟨5, "W"⟩⟩

/-- C5: over any fetched latest block the aggregate loop counts flag-4
entries as active, flag-5 entries as inactive, and every entry toward
`total`; the bonded ratio is `active / total` for a positive total and 0 for
total 0; and the spec's example block (7 Commit, 3 Absent) yields
`(active, inactive, total) = (7, 3, 10)` with ratio `0.7`. -/
theorem claim5_aggregate (b : Block) :
    aggregateCounts (some b)
      = ((b.signatures.countP (fun s => s.blockIDFlag == 4) : Int),
         (b.signatures.countP (fun s => s.blockIDFlag == 5) : Int),
         (b.signatures.length : Int)) ∧
    (∀ active total : Int, 0 < total → bondedRatio active total = (active : ℚ) / (total : ℚ)) ∧
    (∀ active : Int, bondedRatio active 0 = 0) ∧
    aggregateCounts (some exampleBlock) = (7, 3, 10) ∧
    bondedRatio 7 10 = 7 / 10 := by
  refine ⟨?_, ?_, ?_, by decide, by norm_num [bondedRatio]⟩
  · simpa using aggregate_foldl_eq b.signatures (0, 0, 0)
  · intro active total htotal
    simp [bondedRatio, htotal]
  · intro active
    simp [bondedRatio]

/-- C5, witness: the ratio clause applied at the example's positive total,
`bondedRatio 7 10 = 7 / 10`. -/
theorem claim5_witness :
    (0 : Int) < 10 ∧ bondedRatio 7 10 = ((7 : Int) : ℚ) / ((10 : Int) : ℚ) :=
  ⟨by decide, (claim5_aggregate exampleBlock).2.1 7 10 (by decide)⟩

/-! ## Claim C3: signed + missed counts exactly the fetched heights -/

/-- Membership in the scan loop's height list, generalised over fuel and the
loop index: the heights are the positive values from `currentHeight - i`
downward, at most `fuel` of them. -/
lemma scanHeights_mem (H : Int) (fuel : Nat) (i : Int) (h : Int) :
    h ∈ scanHeights H fuel i ↔ (0 < h ∧ h ≤ H - i ∧ H - i - fuel < h) := by
  induction fuel generalizing i with
  | zero =>
    simp only [scanHeights]
    constructor
    · intro hx
      exact absurd hx (List.not_mem_nil _)
    · intro hx
      omega
  | succ fuel ih =>
    by_cases hc : H - i > 0
    · simp only [scanHeights, if_pos hc, List.mem_cons, ih]
      omega
    · simp only [scanHeights, if_neg hc]
      constructor
      · intro hx
        exact absurd hx (List.not_mem_nil _)
      · intro hx
        omega

/-- One block update changes `signedBlocks + missedBlocks` by exactly one. -/
lemma updateStat_sum (addr : String) (b : Block) (s : ValidatorStat) :
    (updateStatOnBlock addr b s).signedBlocks + (updateStatOnBlock addr b s).missedBlocks
      = s.signedBlocks + s.missedBlocks + 1 := by
  unfold updateStatOnBlock
  by_cases hp : b.proposerAddress == addr <;>
    by_cases hs : hasSignedIn b.signatures addr <;> simp [hp, hs] <;> ring

/-- Folding the scan body over any height list adds to
`signedBlocks + missedBlocks` exactly the number of heights whose block
fetch succeeded. -/
lemma scan_fold_sum (src : Int → Option Block) (addr : String) (hs : List Int)
    (init : ValidatorStat) :
    ((hs.foldl (fun s h => match src h with
        | none => s
        | some b => updateStatOnBlock addr b s) init).signedBlocks
      + (hs.foldl (fun s h => match src h with
        | none => s
        | some b => updateStatOnBlock addr b s) init).missedBlocks)
      = init.signedBlocks + init.missedBlocks
        + (hs.countP (fun h => (src h).isSome) : Int) := by
  induction hs generalizing init with
  | nil => simp
  | cons h rest ih =>
    simp only [List.foldl_cons, List.countP_cons]
    cases hsrc : src h with
    | none => simp only [hsrc, ih, Option.isSome_none]; push_cast; ring
    | some b =>
      simp only [hsrc, ih, Option.isSome_some, updateStat_sum]
      push_cast
      ring

/-- C3: for every block source, chain height and tracked validator, after
the raw window scan `signedBlocks + missedBlocks` equals the number of
successfully fetched heights among the visited window — and the visited
window is exactly the heights from `max 1 (H - 99)` up to `H`. -/
theorem claim3_scan_sum (src : Int → Option Block) (H : Int) (addr : String) :
    ((scanValidator src H addr).signedBlocks + (scanValidator src H addr).missedBlocks
      = ((visitedHeights H).countP (fun h => (src h).isSome) : Int)) ∧
    (∀ h : Int, h ∈ visitedHeights H ↔ (max 1 (H - 99) ≤ h ∧ h ≤ H)) := by
  constructor
  · simpa [zeroStat] using scan_fold_sum src addr (visitedHeights H) zeroStat
  · intro h
    rw [visitedHeights, scanHeights_mem]
    constructor
    · intro hh
      exact ⟨by omega, by omega⟩
    · intro hh
      have h1 : (1 : Int) ≤ h := le_trans (le_max_left _ _) hh.1
      have h2 : H - 99 ≤ h := le_trans (le_max_right _ _) hh.1
      omega

/-- C3, witness: with blocks available at heights 5 and 3 only, the scan
from height 5 gives `signed + missed = 2` for a validator; and height 3 lies
in the visited window of height 5 while height 6 does not. -/
theorem claim3_witness :
    ((scanValidator (fun h => if h = 5 ∨ h = 3 then some ⟨"P", [⟨4, "V"⟩]⟩ else none)
          5 "V").signedBlocks
      + (scanValidator (fun h => if h = 5 ∨ h = 3 then some ⟨"P", [⟨4, "V"⟩]⟩ else none)
          5 "V").missedBlocks
      = ((visitedHeights 5).countP
          (fun h => ((fun h => if h = 5 ∨ h = 3 then some (⟨"P", [⟨4, "V"⟩]⟩ : Block)
              else none) h).isSome) : Int)) ∧
    ((3 : Int) ∈ visitedHeights 5) ∧ ¬ ((6 : Int) ∈ visitedHeights 5) :=
  ⟨(claim3_scan_sum (fun h => if h = 5 ∨ h = 3 then some ⟨"P", [⟨4, "V"⟩]⟩ else none) 5 "V").1,
   ((claim3_scan_sum (fun h => if h = 5 ∨ h = 3 then some ⟨"P", [⟨4, "V"⟩]⟩ else none)
      5 "V").2 3).mpr (by norm_num),
   fun hmem => by
     have := ((claim3_scan_sum
        (fun h => if h = 5 ∨ h = 3 then some ⟨"P", [⟨4, "V"⟩]⟩ else none) 5 "V").2 6).mp hmem
     omega⟩

/-! ## Claim C8: alternating Commit/Absent over the top five heights -/

/-- A block whose only signature entry is a Commit (flag 4) for validator V. -/
def commitBlockV : Block := ⟨"P", [⟨4, "V"⟩]⟩

/-- A block whose only signature entry is an Absent (flag 5) for validator V. -/
def absentBlockV : Block := ⟨"P", [⟨5, "V"⟩]⟩

/-- The synthetic block source of the spec's alternating scenario: Commit at
heights `H`, `H-2`, `H-4`, Absent at `H-1`, `H-3`, and a failed fetch
everywhere else. -/
def altSource (H : Int) : Int → Option Block := fun h =>
  if h = H ∨ h = H - 2 ∨ h = H - 4 then some commitBlockV
  else if h = H - 1 ∨ h = H - 3 then some absentBlockV
  else none

/-- Unrolling one iteration of the scan loop while fuel remains and the
height is still positive. -/
lemma scanHeights_unfold (H : Int) (fuel : Nat) (i : Int) (hf : fuel ≠ 0)
    (h : H - i > 0) :
    scanHeights H fuel i = (H - i) :: scanHeights H (fuel - 1) (i + 1) := by
  cases fuel with
  | zero => exact absurd rfl hf
  | succ f =>
    simp [scanHeights, if_pos h]
    omega

/-- Heights whose fetch fails contribute nothing to the scan fold. -/
lemma foldl_skip_none (src : Int → Option Block) (addr : String) (s : ValidatorStat)
    (hs : List Int) (hnone : ∀ h ∈ hs, src h = none) :
    hs.foldl (fun s h => match src h with
      | none => s
      | some b => updateStatOnBlock addr b s) s = s := by
  induction hs generalizing s with
  | nil => rfl
  | cons h rest ih =>
    have hh := hnone h (List.mem_cons_self h rest)
    simp only [List.foldl_cons, hh]
    exact ih _ fun x hx => hnone x (List.mem_cons_of_mem _ hx)

/-- C8: for every chain height `H ≥ 5`, scanning the window against the
alternating source (Commit, Absent, Commit, Absent, Commit at the five
heights `H` down to `H-4`, fetch failure below) yields raw counters
`signed = 3`, `missed = 2`, `maxConsecutiveMissed = 1` for V, and — the
latest height being a Commit — the post-processing leaves the reported
missed count at 2 and the reported `(signed, missed, maxConsecutive)` at
`(3, 2, 1)`. -/
theorem claim8_alternating (H : Int) (hH : 5 ≤ H) :
    (scanValidator (altSource H) H "V").signedBlocks = 3 ∧
    (scanValidator (altSource H) H "V").missedBlocks = 2 ∧
    (scanValidator (altSource H) H "V").maxConsecutiveMissed = 1 ∧
    postValidatorMissed (scanValidator (altSource H) H "V") (altSource H H) "V" = 2 ∧
    postAggregate (scanValidator (altSource H) H "V") (altSource H H) "V" = (3, 2, 1) := by
  have sH0 : altSource H H = some commitBlockV := by
    unfold altSource
    rw [if_pos (Or.inl rfl)]
  have sH1 : altSource H (H - 1) = some absentBlockV := by
    unfold altSource
    rw [if_neg (by omega), if_pos (Or.inl rfl)]
  have sH2 : altSource H (H - 2) = some commitBlockV := by
    unfold altSource
    rw [if_pos (Or.inr (Or.inl rfl))]
  have sH3 : altSource H (H - 3) = some absentBlockV := by
    unfold altSource
    rw [if_neg (by omega), if_pos (Or.inr rfl)]
  have sH4 : altSource H (H - 4) = some commitBlockV := by
    unfold altSource
    rw [if_pos (Or.inr (Or.inr rfl))]
  have hv : visitedHeights H
      = H :: (H - 1) :: (H - 2) :: (H - 3) :: (H - 4) :: scanHeights H 95 5 := by
    rw [visitedHeights]
    rw [scanHeights_unfold H 100 0 (by norm_num) (by omega)]
    norm_num
    rw [scanHeights_unfold H 99 1 (by norm_num) (by omega)]
    norm_num
    rw [scanHeights_unfold H 98 2 (by norm_num) (by omega)]
    norm_num
    rw [scanHeights_unfold H 97 3 (by norm_num) (by omega)]
    norm_num
    rw [scanHeights_unfold H 96 4 (by norm_num) (by omega)]
    norm_num
  have htail : ∀ h ∈ scanHeights H 95 5, altSource H h = none := by
    intro h hm
    rw [scanHeights_mem] at hm
    unfold altSource
    rw [if_neg (by omega), if_neg (by omega)]
  have hscan : scanValidator (altSource H) H "V" = ⟨3, 2, 0, 1, 0⟩ := by
    rw [scanValidator, hv]
    simp only [List.foldl_cons, sH0, sH1, sH2, sH3, sH4]
    rw [foldl_skip_none (altSource H) "V" _ _ htail]
    decide
  rw [hscan, sH0]
  decide

/-- C8, witness for `claim8_alternating` at the concrete height 105. -/
theorem claim8_witness :
    (5 : Int) ≤ 105 ∧
    (scanValidator (altSource 105) 105 "V").signedBlocks = 3 ∧
    (scanValidator (altSource 105) 105 "V").missedBlocks = 2 ∧
    (scanValidator (altSource 105) 105 "V").maxConsecutiveMissed = 1 :=
  ⟨by norm_num, (claim8_alternating 105 (by norm_num)).1,
   (claim8_alternating 105 (by norm_num)).2.1,
   (claim8_alternating 105 (by norm_num)).2.2.1⟩

/-! ## Claim C4: history growth and FIFO eviction -/

/-- Appending one observation appends one delta against the previous last
observation. -/
lemma consecutiveDeltas_snoc (vs : List (Int × Int)) (u : Int × Int) :
    ∀ v, vs.getLast? = some v →
      consecutiveDeltas (vs ++ [u]) = consecutiveDeltas vs ++ [u.2 - v.2] := by
  induction vs with
  | nil =>
    intro v hv
    simp at hv
  | cons a rest ih =>
    intro v hv
    cases rest with
    | nil =>
      simp only [List.getLast?_singleton, Option.some.injEq] at hv
      subst hv
      simp [consecutiveDeltas]
    | cons b r =>
      have hv' : (b :: r).getLast? = some v := by
        rwa [List.getLast?_cons_cons] at hv
      have hih := ih v hv'
      simp only [List.cons_append] at hih ⊢
      rw [consecutiveDeltas, consecutiveDeltas]
      rw [hih]
      simp

/-- `consecutiveDeltas` of `n` observations has `n - 1` entries. -/
lemma consecutiveDeltas_length (us : List (Int × Int)) :
    (consecutiveDeltas us).length = us.length - 1 := by
  induction us with
  | nil => rfl
  | cons a rest ih =>
    cases rest with
    | nil => rfl
    | cons b r =>
      rw [consecutiveDeltas]
      simp only [List.length_cons] at ih ⊢
      omega

/-- The append-then-trim step of `UpdateBlockTime`, applied to a history
that already holds the last 100 deltas, yields the last 100 deltas of the
extended sequence. -/
lemma history_step (ds : List Int) (d : Int) :
    (if ((takeRight 100 ds ++ [d]).length : Int) > (100 : Int)
       then (takeRight 100 ds ++ [d]).tail else takeRight 100 ds ++ [d])
      = takeRight 100 (ds ++ [d]) := by
  have hlen : (takeRight 100 ds).length = ds.length - (ds.length - 100) := by
    simp [takeRight]
  have hkey : takeRight 100 ds ++ [d] = (ds ++ [d]).drop (ds.length - 100) := by
    rw [takeRight, List.drop_append_of_le_length (by omega)]
  by_cases hlt : ds.length < 100
  · rw [if_neg (by simp only [List.length_append, List.length_singleton, hlen]; push_cast; omega)]
    rw [hkey, takeRight]
    congr 1
    simp only [List.length_append, List.length_singleton]
    omega
  · rw [if_pos (by simp only [List.length_append, List.length_singleton, hlen]; push_cast; omega)]
    rw [hkey, List.tail_drop, takeRight]
    congr 1
    simp only [List.length_append, List.length_singleton]
    omega

/-- State reached by feeding a strictly increasing, positive-height
observation sequence from a fresh calculator of capacity 100: the baseline
is the last observation and the history holds exactly the last 100
consecutive deltas. -/
lemma runUpdates_spec (us : List (Int × Int)) :
    (∀ u ∈ us, 1 ≤ u.1) → us.Chain' (fun a b => a.1 < b.1) →
      (runUpdates (NewBlockTimeCalculator 100) us).maxHistorySize = 100 ∧
      (∀ v, us.getLast? = some v →
        (runUpdates (NewBlockTimeCalculator 100) us).lastBlockHeight = v.1 ∧
        (runUpdates (NewBlockTimeCalculator 100) us).lastBlockTime = v.2) ∧
      (runUpdates (NewBlockTimeCalculator 100) us).blockTimeHistory
        = takeRight 100 (consecutiveDeltas us) := by
  induction us using List.reverseRecOn with
  | nil =>
    intro _ _
    refine ⟨rfl, ?_, rfl⟩
    intro v hv
    simp at hv
  | append_singleton vs u ih =>
    intro hpos hchain
    have hposvs : ∀ w ∈ vs, 1 ≤ w.1 := fun w hw => hpos w (List.mem_append_left _ hw)
    have hchainvs : vs.Chain' (fun a b => a.1 < b.1) := (List.chain'_append.mp hchain).1
    obtain ⟨ihmax, ihlast, ihhist⟩ := ih hposvs hchainvs
    have hstep : runUpdates (NewBlockTimeCalculator 100) (vs ++ [u])
        = UpdateBlockTime (runUpdates (NewBlockTimeCalculator 100) vs) u.1 u.2 := by
      simp [runUpdates, List.foldl_append]
    cases hvs : vs.getLast? with
    | none =>
      have hnil : vs = [] := by
        cases vs with
        | nil => rfl
        | cons a r => simp [List.getLast?_eq_none_iff] at hvs
      subst hnil
      rw [hstep]
      refine ⟨by simp [UpdateBlockTime, runUpdates, NewBlockTimeCalculator], ?_, ?_⟩
      · intro v hv
        simp only [List.nil_append, List.getLast?_singleton, Option.some.injEq] at hv
        subst hv
        constructor <;> simp [UpdateBlockTime, runUpdates]
      · have hcond : ¬((NewBlockTimeCalculator 100).lastBlockHeight > 0 ∧
            u.1 > (NewBlockTimeCalculator 100).lastBlockHeight) := by
          simp [NewBlockTimeCalculator]
        simp [UpdateBlockTime, runUpdates, NewBlockTimeCalculator, hcond, consecutiveDeltas,
          takeRight]
    | some v =>
      obtain ⟨hh, ht⟩ := ihlast v hvs
      have hv1 : 1 ≤ v.1 := by
        refine hposvs v ?_
        obtain ⟨hne, hvv⟩ := List.mem_getLast?_eq_getLast (l := vs) (x := v) hvs
        subst hvv
        exact List.getLast_mem hne
      have hlt : v.1 < u.1 := by
        have hr := (List.chain'_append.mp hchain).2.2
        exact hr v hvs u rfl
      have hcond : (runUpdates (NewBlockTimeCalculator 100) vs).lastBlockHeight > 0 ∧
          u.1 > (runUpdates (NewBlockTimeCalculator 100) vs).lastBlockHeight := by
        rw [hh]
        omega
      rw [hstep]
      refine ⟨?_, ?_, ?_⟩
      · simpa [UpdateBlockTime] using ihmax
      · intro w hw
        simp only [List.getLast?_append, List.getLast?_singleton, Option.or_some,
          Option.some.injEq] at hw
        subst hw
        constructor <;> simp [UpdateBlockTime]
      · have hhist : (UpdateBlockTime (runUpdates (NewBlockTimeCalculator 100) vs)
            u.1 u.2).blockTimeHistory
            = if (((runUpdates (NewBlockTimeCalculator 100) vs).blockTimeHistory
                  ++ [u.2 - (runUpdates (NewBlockTimeCalculator 100) vs).lastBlockTime]).length
                    : Int)
                > (runUpdates (NewBlockTimeCalculator 100) vs).maxHistorySize
              then ((runUpdates (NewBlockTimeCalculator 100) vs).blockTimeHistory
                  ++ [u.2 - (runUpdates (NewBlockTimeCalculator 100) vs).lastBlockTime]).tail
              else (runUpdates (NewBlockTimeCalculator 100) vs).blockTimeHistory
                  ++ [u.2 - (runUpdates (NewBlockTimeCalculator 100) vs).lastBlockTime] := by
          simp [UpdateBlockTime, hcond]
        rw [hhist, ihhist, ht, ihmax, history_step,
          consecutiveDeltas_snoc vs u v hvs]

/-- C4, amended: for every sequence of updates with strictly increasing
*positive* heights, after the `n`-th update the history length is
`min (n-1) 100` with capacity 100, and the history holds exactly the
newest `min (n-1) 100` consecutive deltas in order — the oldest interval is
evicted first once capacity is exceeded (FIFO).  (The positivity of the
heights is required: a first height `≤ 0` keeps `lastBlockHeight ≤ 0`, so
the next update records no interval; see the counterexample.) -/
theorem claim4_fifo (us : List (Int × Int)) (hpos : ∀ u ∈ us, 1 ≤ u.1)
    (hchain : us.Chain' (fun a b => a.1 < b.1)) :
    (runUpdates (NewBlockTimeCalculator 100) us).blockTimeHistory
      = takeRight 100 (consecutiveDeltas us) ∧
    (runUpdates (NewBlockTimeCalculator 100) us).blockTimeHistory.length
      = min (us.length - 1) 100 := by
  obtain ⟨-, -, hhist⟩ := runUpdates_spec us hpos hchain
  refine ⟨hhist, ?_⟩
  rw [hhist, takeRight, List.length_drop, consecutiveDeltas_length]
  omega

/-- C4, counterexample to the claim as stated (arbitrary strictly increasing
heights): the strictly increasing sequence `(0,0), (1,5), (2,9)` leaves a
history of length 1 after 3 updates, not `min (3-1) 100 = 2`, because the
first two observations keep `lastBlockHeight ≤ 0` and record no interval. -/
theorem claim4_counterexample :
    ([((0 : Int), (0 : Int)), (1, 5), (2, 9)].Chain' (fun a b => a.1 < b.1)) ∧
    (runUpdates (NewBlockTimeCalculator 100)
        [(0, 0), (1, 5), (2, 9)]).blockTimeHistory.length
      ≠ min ([((0 : Int), (0 : Int)), (1, 5), (2, 9)].length - 1) 100 := by
  constructor
  · norm_num [List.chain'_cons, List.chain'_singleton]
  · decide

/-- C4, witness for `claim4_fifo` on the positive strictly increasing
sequence `(1,0), (2,5), (3,9)`: history `[5, 4]` of length `min 2 100`. -/
theorem claim4_witness :
    (∀ u ∈ [((1 : Int), (0 : Int)), (2, 5), (3, 9)], 1 ≤ u.1) ∧
    ([((1 : Int), (0 : Int)), (2, 5), (3, 9)].Chain' (fun a b => a.1 < b.1)) ∧
    (runUpdates (NewBlockTimeCalculator 100) [(1, 0), (2, 5), (3, 9)]).blockTimeHistory
      = takeRight 100 (consecutiveDeltas [(1, 0), (2, 5), (3, 9)]) ∧
    (runUpdates (NewBlockTimeCalculator 100) [(1, 0), (2, 5), (3, 9)]).blockTimeHistory.length
      = min ([((1 : Int), (0 : Int)), (2, 5), (3, 9)].length - 1) 100 :=
  ⟨by decide, by norm_num [List.chain'_cons, List.chain'_singleton],
   (claim4_fifo [(1, 0), (2, 5), (3, 9)] (by decide)
     (by norm_num [List.chain'_cons, List.chain'_singleton])).1,
   (claim4_fifo [(1, 0), (2, 5), (3, 9)] (by decide)
     (by norm_num [List.chain'_cons, List.chain'_singleton])).2⟩

end ZerogExporter
